import Mathlib

/-!
Verification of the plugin runtime of the image-viewer backend.

The development shallowly embeds the three Rust modules the claims are
about:

* `src-tauri/src/core/plugin_manager.rs` (the `PluginManager` lifecycle
  engine),
* `src-tauri/src/plugins/registry.rs` (the `PluginRegistry` variant and its
  `PluginRegistryError` taxonomy),
* `src-tauri/src/core/event_bus.rs` and
  `src-tauri/src/core/plugin_context.rs`.

Rust `HashMap`s are modelled as association lists with unique keys,
`Mutex`/`RwLock` acquisition is modelled as always succeeding (the embedded
semantics is the single-threaded one; lock poisoning never happens), and a
call to `EventBus::publish` made by a lifecycle operation is modelled as
recording the published event in an effect trace (handler dispatch itself is
embedded separately for the event-bus claims).  Plugin trait objects are
modelled by the outcome each of their three lifecycle callbacks would
return.
-/

namespace ImageViewer

/-- Association-list lookup: the model of `HashMap::get`. -/
def alistLookup {β : Type _} : List (String × β) → String → Option β
  | [], _ => none
  | (k, v) :: rest, key => if k = key then some v else alistLookup rest key

/-- Replace the value stored at a key (first occurrence): the model of
mutating through `HashMap::get_mut`. -/
def alistUpdate {β : Type _} : List (String × β) → String → β → List (String × β)
  | [], _, _ => []
  | (k, v) :: rest, key, w =>
    if k = key then (k, w) :: rest else (k, v) :: alistUpdate rest key w

/-- Delete the entry stored at a key: the model of `HashMap::remove`. -/
def alistRemove {β : Type _} : List (String × β) → String → List (String × β)
  | [], _ => []
  | (k, v) :: rest, key => if k = key then rest else (k, v) :: alistRemove rest key

theorem alistLookup_mem {β : Type _} {l : List (String × β)} {key : String} {v : β}
    (h : alistLookup l key = some v) : (key, v) ∈ l := by
  induction l with
  | nil => simp [alistLookup] at h
  | cons p rest ih =>
    obtain ⟨k, w⟩ := p
    by_cases hk : k = key
    · simp [alistLookup, hk] at h
      subst hk; subst h; exact List.mem_cons_self _ _
    · simp [alistLookup, hk] at h
      exact List.mem_cons_of_mem _ (ih h)

theorem mem_alistUpdate {β : Type _} {l : List (String × β)} {key : String} {w : β}
    {p : String × β} (h : p ∈ alistUpdate l key w) : p ∈ l ∨ p.2 = w := by
  induction l with
  | nil => simp [alistUpdate] at h
  | cons q rest ih =>
    obtain ⟨k, v⟩ := q
    by_cases hk : k = key
    · simp [alistUpdate, hk] at h
      rcases h with h | h
      · right; rw [h]
      · left; exact List.mem_cons_of_mem _ h
    · simp [alistUpdate, hk] at h
      rcases h with h | h
      · left; rw [h]; exact List.mem_cons_self _ _
      · rcases ih h with h' | h'
        · exact Or.inl (List.mem_cons_of_mem _ h')
        · exact Or.inr h'

theorem mem_alistRemove {β : Type _} {l : List (String × β)} {key : String}
    {p : String × β} (h : p ∈ alistRemove l key) : p ∈ l := by
  induction l with
  | nil => simp [alistRemove] at h
  | cons q rest ih =>
    obtain ⟨k, v⟩ := q
    by_cases hk : k = key
    · simp [alistRemove, hk] at h
      exact List.mem_cons_of_mem _ h
    · simp [alistRemove, hk] at h
      rcases h with h | h
      · rw [h]; exact List.mem_cons_self _ _
      · exact List.mem_cons_of_mem _ (ih h)

theorem alistLookup_update_self {β : Type _} (l : List (String × β)) (key : String) (w : β) :
    alistLookup (alistUpdate l key w) key = (alistLookup l key).map (fun _ => w) := by
  induction l with
  | nil => simp [alistLookup, alistUpdate]
  | cons q rest ih =>
    obtain ⟨k, v⟩ := q
    by_cases hk : k = key
    · simp [alistLookup, alistUpdate, hk]
    · simp [alistLookup, alistUpdate, hk, ih]

theorem alistLookup_update_ne {β : Type _} (l : List (String × β)) {key key' : String}
    (w : β) (h : key' ≠ key) :
    alistLookup (alistUpdate l key w) key' = alistLookup l key' := by
  induction l with
  | nil => simp [alistUpdate]
  | cons q rest ih =>
    obtain ⟨k, v⟩ := q
    by_cases hk : k = key
    · subst hk
      simp [alistLookup, alistUpdate, Ne.symm h]
    · by_cases hk' : k = key'
      · subst hk'
        simp [alistLookup, alistUpdate, hk]
      · simp [alistLookup, alistUpdate, hk, hk', ih]

theorem alistLookup_append {β : Type _} (l₁ l₂ : List (String × β)) (key : String) :
    alistLookup (l₁ ++ l₂) key = (alistLookup l₁ key).or (alistLookup l₂ key) := by
  induction l₁ with
  | nil => simp [alistLookup]
  | cons q rest ih =>
    obtain ⟨k, v⟩ := q
    by_cases hk : k = key
    · simp [alistLookup, hk]
    · simp [alistLookup, hk, ih]

/-- One event published on the bus by a lifecycle operation, projected to the
payload fields the source actually fills in (`plugin_id`, and for
`plugin:error` also `error` and `operation`). -/
structure EventRec where
  name : String
  plugin_id : String
  error : Option String
  operation : Option String
deriving DecidableEq

/-- Observable effects of one lifecycle operation: which plugin callbacks
were invoked and which events were published, in order. -/
inductive Eff where
  | callInit : String → Eff
  | callActivate : String → Eff
  | callDeactivate : String → Eff
  | published : EventRec → Eff
deriving DecidableEq

/-- The events published during an effect trace, in order. -/
def eventsOf (effs : List Eff) : List EventRec :=
  effs.filterMap fun e =>
    match e with
    | .published ev => some ev
    | _ => none

/-- `PluginDescriptor` of `plugin_trait.rs`. -/
structure PluginDescriptor where
  id : String
  name : String
  version : String
  description : String
  author : String
deriving DecidableEq

/-- A `Box<dyn Plugin>` trait object, modelled by its identity and by the
outcome each lifecycle callback (`initialize`, `activate`, `deactivate`)
returns when the registry invokes it. -/
structure Plugin where
  pid : String
  descriptor : PluginDescriptor
  initRes : Except String Unit
  actRes : Except String Unit
  deactRes : Except String Unit

/-- `PluginState` of `plugin_manager.rs` (identical to the one declared in
`registry.rs`). -/
inductive PluginState where
  | Registered
  | Initialized
  | Active
  | Inactive
  | Error
deriving DecidableEq

/-- `PluginRegistration` of `plugin_manager.rs`: one entry of the manager's
`plugins` map. -/
structure PluginRegistration where
  plugin : Plugin
  state : PluginState
  error : Option String

/-- `PluginManager` of `plugin_manager.rs`, reduced to its `plugins` map (the
context and the bus handle carry no state the lifecycle claims depend on;
published events are returned in the effect trace instead). -/
structure PluginManager where
  plugins : List (String × PluginRegistration)

/-- Outcome of one `PluginManager` operation: the manager afterwards, the
returned `Result<(), String>`, and the observable effects in order. -/
structure MgrResult where
  mgr : PluginManager
  res : Except String Unit
  effs : List Eff

/-- A fresh manager, as built by `PluginManager::new`. -/
def PluginManager.empty : PluginManager := ⟨[]⟩

/-- `PluginManager::register_plugin`. -/
def PluginManager.register_plugin (m : PluginManager) (p : Plugin) : MgrResult :=
  if (alistLookup m.plugins p.pid).isSome then
    ⟨m, .error ("Plugin with ID '" ++ p.pid ++ "' is already registered"), []⟩
  else
    ⟨⟨m.plugins ++ [(p.pid, ⟨p, .Registered, none⟩)]⟩, .ok (),
      [.published ⟨"plugin:registered", p.pid, none, none⟩]⟩

/-- `PluginManager::initialize_plugin`: only a `Registered` entry may be
initialized; the callback outcome decides between the `Initialized` and
`Error` transitions. -/
def PluginManager.initialize_plugin (m : PluginManager) (key : String) : MgrResult :=
  match alistLookup m.plugins key with
  | none => ⟨m, .error ("Plugin with ID '" ++ key ++ "' not found"), []⟩
  | some reg =>
    if reg.state ≠ .Registered then
      ⟨m, .error ("Plugin '" ++ key ++ "' is not in a registerable state"), []⟩
    else
      match reg.plugin.initRes with
      | .ok _ =>
        ⟨⟨alistUpdate m.plugins key { reg with state := .Initialized, error := none }⟩,
          .ok (),
          [.callInit key, .published ⟨"plugin:initialized", key, none, none⟩]⟩
      | .error e =>
        ⟨⟨alistUpdate m.plugins key { reg with state := .Error, error := some e }⟩,
          .error e,
          [.callInit key, .published ⟨"plugin:error", key, some e, some "initialize"⟩]⟩

/-- The tail of `PluginManager::activate_plugin` after the state dispatch:
invoke the `activate` callback and transition to `Active` or `Error`. -/
def PluginManager.runActivate (m : PluginManager) (key : String) : MgrResult :=
  match alistLookup m.plugins key with
  | none => ⟨m, .error ("Plugin with ID '" ++ key ++ "' not found"), []⟩
  | some reg =>
    match reg.plugin.actRes with
    | .ok _ =>
      ⟨⟨alistUpdate m.plugins key { reg with state := .Active, error := none }⟩,
        .ok (),
        [.callActivate key, .published ⟨"plugin:activated", key, none, none⟩]⟩
    | .error e =>
      ⟨⟨alistUpdate m.plugins key { reg with state := .Error, error := some e }⟩,
        .error e,
        [.callActivate key, .published ⟨"plugin:error", key, some e, some "activate"⟩]⟩

/-- `PluginManager::activate_plugin`: a `Registered` entry is auto-initialized
first (failures propagate); an `Active` entry is a successful no-op; an
`Error` entry fails surfacing the stored message; otherwise the `activate`
callback runs. -/
def PluginManager.activate_plugin (m : PluginManager) (key : String) : MgrResult :=
  match alistLookup m.plugins key with
  | none => ⟨m, .error ("Plugin with ID '" ++ key ++ "' not found"), []⟩
  | some reg =>
    if reg.state = .Registered then
      let r1 := m.initialize_plugin key
      match r1.res with
      | .error e => ⟨r1.mgr, .error e, r1.effs⟩
      | .ok _ =>
        let r2 := r1.mgr.runActivate key
        ⟨r2.mgr, r2.res, r1.effs ++ r2.effs⟩
    else if reg.state = .Active then
      ⟨m, .ok (), []⟩
    else if reg.state = .Error then
      ⟨m, .error ("Cannot activate plugin in error state: "
          ++ (reg.error.getD "Unknown error")), []⟩
    else
      m.runActivate key

/-- `PluginManager::deactivate_plugin`: a successful no-op unless the entry is
`Active`; otherwise the `deactivate` callback decides between `Inactive` and
`Error`. -/
def PluginManager.deactivate_plugin (m : PluginManager) (key : String) : MgrResult :=
  match alistLookup m.plugins key with
  | none => ⟨m, .error ("Plugin with ID '" ++ key ++ "' not found"), []⟩
  | some reg =>
    if reg.state ≠ .Active then
      ⟨m, .ok (), []⟩
    else
      match reg.plugin.deactRes with
      | .ok _ =>
        ⟨⟨alistUpdate m.plugins key { reg with state := .Inactive, error := none }⟩,
          .ok (),
          [.callDeactivate key, .published ⟨"plugin:deactivated", key, none, none⟩]⟩
      | .error e =>
        ⟨⟨alistUpdate m.plugins key { reg with state := .Error, error := some e }⟩,
          .error e,
          [.callDeactivate key,
            .published ⟨"plugin:error", key, some e, some "deactivate"⟩]⟩

/-- `PluginManager::get_plugin_state`. -/
def PluginManager.get_plugin_state (m : PluginManager) (key : String) :
    Except String PluginState :=
  match alistLookup m.plugins key with
  | none => .error ("Plugin with ID '" ++ key ++ "' not found")
  | some reg => .ok reg.state

/-- `PluginManager::get_plugin_error`. -/
def PluginManager.get_plugin_error (m : PluginManager) (key : String) :
    Except String (Option String) :=
  match alistLookup m.plugins key with
  | none => .error ("Plugin with ID '" ++ key ++ "' not found")
  | some reg => .ok reg.error

/-- `PluginManager::unregister_plugin`: deactivate first when `Active`
(failures propagate), then remove the entry. -/
def PluginManager.unregister_plugin (m : PluginManager) (key : String) : MgrResult :=
  match m.get_plugin_state key with
  | .error e => ⟨m, .error e, []⟩
  | .ok st =>
    let r1 := if st = .Active then m.deactivate_plugin key else ⟨m, .ok (), []⟩
    match r1.res with
    | .error e => ⟨r1.mgr, .error e, r1.effs⟩
    | .ok _ =>
      if (alistLookup r1.mgr.plugins key).isSome then
        ⟨⟨alistRemove r1.mgr.plugins key⟩, .ok (),
          r1.effs ++ [.published ⟨"plugin:unregistered", key, none, none⟩]⟩
      else
        ⟨r1.mgr, .error ("Plugin with ID '" ++ key ++ "' not found"), r1.effs⟩

/-- Manager states reachable from `PluginManager::new` through the public
lifecycle operations, for arbitrary plugins. -/
inductive ReachableM : PluginManager → Prop where
  | empty : ReachableM PluginManager.empty
  | register (m : PluginManager) (p : Plugin) :
      ReachableM m → ReachableM (m.register_plugin p).mgr
  | initStep (m : PluginManager) (key : String) :
      ReachableM m → ReachableM (m.initialize_plugin key).mgr
  | activate (m : PluginManager) (key : String) :
      ReachableM m → ReachableM (m.activate_plugin key).mgr
  | deactivate (m : PluginManager) (key : String) :
      ReachableM m → ReachableM (m.deactivate_plugin key).mgr
  | unregister (m : PluginManager) (key : String) :
      ReachableM m → ReachableM (m.unregister_plugin key).mgr

/-- The coherence of one registry entry: an `Error` entry stores a message,
and a non-`Error` entry stores none. -/
def EntryInv (reg : PluginRegistration) : Prop :=
  (reg.state = .Error → reg.error ≠ none) ∧ (reg.state ≠ .Error → reg.error = none)

/-- Every entry of the manager is coherent. -/
def MgrInv (m : PluginManager) : Prop :=
  ∀ p ∈ m.plugins, EntryInv p.2

theorem mgrInv_register (m : PluginManager) (p : Plugin) (hm : MgrInv m) :
    MgrInv (m.register_plugin p).mgr := by
  unfold PluginManager.register_plugin
  split
  · exact hm
  · intro q hq
    rcases List.mem_append.mp hq with h | h
    · exact hm q h
    · simp only [List.mem_singleton] at h
      subst h
      exact ⟨fun h => by simp at h, fun _ => rfl⟩

theorem mgrInv_initialize_plugin (m : PluginManager) (key : String) (hm : MgrInv m) :
    MgrInv (m.initialize_plugin key).mgr := by
  unfold PluginManager.initialize_plugin
  split
  · exact hm
  · split
    · exact hm
    · split
      · intro q hq
        rcases mem_alistUpdate hq with h | h
        · exact hm q h
        · rw [h]
          exact ⟨fun h => by simp at h, fun _ => rfl⟩
      · intro q hq
        rcases mem_alistUpdate hq with h | h
        · exact hm q h
        · rw [h]
          exact ⟨fun _ => by simp, fun h => by simp at h⟩

theorem mgrInv_runActivate (m : PluginManager) (key : String) (hm : MgrInv m) :
    MgrInv (m.runActivate key).mgr := by
  unfold PluginManager.runActivate
  split
  · exact hm
  · split
    · intro q hq
      rcases mem_alistUpdate hq with h | h
      · exact hm q h
      · rw [h]
        exact ⟨fun h => by simp at h, fun _ => rfl⟩
    · intro q hq
      rcases mem_alistUpdate hq with h | h
      · exact hm q h
      · rw [h]
        exact ⟨fun _ => by simp, fun h => by simp at h⟩

theorem mgrInv_activate_plugin (m : PluginManager) (key : String) (hm : MgrInv m) :
    MgrInv (m.activate_plugin key).mgr := by
  unfold PluginManager.activate_plugin
  split
  · exact hm
  · split
    · dsimp only
      split
      · exact mgrInv_initialize_plugin m key hm
      · exact mgrInv_runActivate _ key (mgrInv_initialize_plugin m key hm)
    · split
      · exact hm
      · split
        · exact hm
        · exact mgrInv_runActivate m key hm

theorem mgrInv_deactivate_plugin (m : PluginManager) (key : String) (hm : MgrInv m) :
    MgrInv (m.deactivate_plugin key).mgr := by
  unfold PluginManager.deactivate_plugin
  split
  · exact hm
  · split
    · exact hm
    · split
      · intro q hq
        rcases mem_alistUpdate hq with h | h
        · exact hm q h
        · rw [h]
          exact ⟨fun h => by simp at h, fun _ => rfl⟩
      · intro q hq
        rcases mem_alistUpdate hq with h | h
        · exact hm q h
        · rw [h]
          exact ⟨fun _ => by simp, fun h => by simp at h⟩

theorem mgrInv_unregister_plugin (m : PluginManager) (key : String) (hm : MgrInv m) :
    MgrInv (m.unregister_plugin key).mgr := by
  unfold PluginManager.unregister_plugin
  split
  · exact hm
  · rename_i st heq
    dsimp only
    by_cases hst : st = PluginState.Active
    · simp only [if_pos hst]
      have hd := mgrInv_deactivate_plugin m key hm
      split
      · exact hd
      · split
        · intro q hq
          exact hd q (mem_alistRemove hq)
        · exact hd
    · simp only [if_neg hst]
      split
      · intro q hq
        exact hm q (mem_alistRemove hq)
      · exact hm

theorem reachableM_inv {m : PluginManager} (hm : ReachableM m) : MgrInv m := by
  induction hm with
  | empty => intro q hq; simp [PluginManager.empty] at hq
  | register m p _ ih => exact mgrInv_register m p ih
  | initStep m key _ ih => exact mgrInv_initialize_plugin m key ih
  | activate m key _ ih => exact mgrInv_activate_plugin m key ih
  | deactivate m key _ ih => exact mgrInv_deactivate_plugin m key ih
  | unregister m key _ ih => exact mgrInv_unregister_plugin m key ih

/-- `PluginRegistryError` of `plugins/registry.rs`. -/
inductive PluginRegistryError where
  | PluginAlreadyExists : String → PluginRegistryError
  | PluginNotFound : String → PluginRegistryError
  | InitializationFailed : String → String → PluginRegistryError
  | LoadFailed : String → String → PluginRegistryError
  | DependencyNotFound : String → String → PluginRegistryError
  | OperationError : String → PluginRegistryError
  | SystemError : String → PluginRegistryError
deriving DecidableEq

/-- `RegistryEntry` of `plugins/registry.rs`. -/
structure RegistryEntry where
  plugin : Plugin
  state : PluginState
  error : Option String
  dependencies : List String

/-- `PluginRegistry` of `plugins/registry.rs`, reduced to its `plugins` map
(the discovery-path list and the context hold no state the claims touch;
`discover_plugins` is a stub returning the empty list). -/
structure PluginRegistry where
  plugins : List (String × RegistryEntry)

/-- Outcome of one `PluginRegistry` operation. -/
structure RegResult where
  reg : PluginRegistry
  res : Except PluginRegistryError Unit
  effs : List Eff

/-- A fresh registry, as built by `PluginRegistry::new`. -/
def PluginRegistry.empty : PluginRegistry := ⟨[]⟩

/-- `PluginRegistry::extract_dependencies`: the descriptor carries no
dependency information, so the source returns the empty vector. -/
def extract_dependencies (_descriptor : PluginDescriptor) : List String := []

/-- `PluginRegistry::register_plugin`. -/
def PluginRegistry.register_plugin (r : PluginRegistry) (p : Plugin) : RegResult :=
  if (alistLookup r.plugins p.pid).isSome then
    ⟨r, .error (.PluginAlreadyExists p.pid), []⟩
  else
    ⟨⟨r.plugins ++ [(p.pid, ⟨p, .Registered, none, extract_dependencies p.descriptor⟩)]⟩,
      .ok (), [.published ⟨"plugin:registered", p.pid, none, none⟩]⟩

/-- `PluginRegistry::get_plugin_state`. -/
def PluginRegistry.get_plugin_state (r : PluginRegistry) (key : String) :
    Except PluginRegistryError PluginState :=
  match alistLookup r.plugins key with
  | none => .error (.PluginNotFound key)
  | some e => .ok e.state

/-- `PluginRegistry::get_plugin_error`. -/
def PluginRegistry.get_plugin_error (r : PluginRegistry) (key : String) :
    Except PluginRegistryError (Option String) :=
  match alistLookup r.plugins key with
  | none => .error (.PluginNotFound key)
  | some e => .ok e.error

/-- `PluginRegistry::get_plugin_count`. -/
def PluginRegistry.get_plugin_count (r : PluginRegistry) :
    Except PluginRegistryError Nat :=
  .ok r.plugins.length

/-- The tail of `PluginRegistry::initialize_plugin` after the dependency
loop: re-read the state; a non-`Registered`, non-`Error` entry is a
successful no-op, an `Error` entry fails, and a `Registered` entry runs the
`initialize` callback and transitions to `Initialized` or `Error`. -/
def initAfterDeps (r : PluginRegistry) (key : String) (effs : List Eff) : RegResult :=
  match r.get_plugin_state key with
  | .error e => ⟨r, .error e, effs⟩
  | .ok st =>
    if st ≠ .Registered then
      if st = .Error then
        ⟨r, .error (.OperationError ("Plugin '" ++ key ++ "' is in error state")), effs⟩
      else
        ⟨r, .ok (), effs⟩
    else
      match alistLookup r.plugins key with
      | none => ⟨r, .error (.PluginNotFound key), effs⟩
      | some entry =>
        match entry.plugin.initRes with
        | .ok _ =>
          ⟨⟨alistUpdate r.plugins key { entry with state := .Initialized, error := none }⟩,
            .ok (),
            effs ++ [.callInit key, .published ⟨"plugin:initialized", key, none, none⟩]⟩
        | .error e =>
          ⟨⟨alistUpdate r.plugins key { entry with state := .Error, error := some e }⟩,
            .error (.InitializationFailed key e),
            effs ++ [.callInit key,
              .published ⟨"plugin:error", key, some e, some "initialize"⟩]⟩

/-- The `for dep in &dependencies` loop of `initialize_plugin`: initialize
each dependency in turn (through `f`, the recursive call at one unit less
fuel), stopping at the first failure with `DependencyNotFound`. -/
def depsLoop (f : PluginRegistry → String → RegResult) :
    PluginRegistry → List String → String →
    PluginRegistry × Option PluginRegistryError × List Eff
  | r, [], _ => (r, none, [])
  | r, dep :: rest, key =>
    let r1 := f r dep
    match r1.res with
    | .error _ => (r1.reg, some (.DependencyNotFound dep key), r1.effs)
    | .ok _ =>
      match depsLoop f r1.reg rest key with
      | (r2, err, effs) => (r2, err, r1.effs ++ effs)

/-- `PluginRegistry::initialize_plugin`, with explicit fuel bounding the
dependency recursion.  The fuel never runs out on entries the registry
itself creates, because `extract_dependencies` always returns the empty
list (`reachableR_deps_empty`). -/
def initFuel : Nat → PluginRegistry → String → RegResult
  | 0, r, _ => ⟨r, .error (.SystemError "dependency recursion limit"), []⟩
  | fuel + 1, r, key =>
    match alistLookup r.plugins key with
    | none => ⟨r, .error (.PluginNotFound key), []⟩
    | some entry =>
      match depsLoop (initFuel fuel) r entry.dependencies key with
      | (r1, some err, effs) => ⟨r1, .error err, effs⟩
      | (r1, none, effs) => initAfterDeps r1 key effs

/-- `PluginRegistry::initialize_plugin` with the fuel instantiated; one unit
of fuel suffices for every entry whose dependency list is empty, which is
every entry the registry ever creates. -/
def PluginRegistry.initialize_plugin (r : PluginRegistry) (key : String) : RegResult :=
  initFuel (r.plugins.length + 1) r key

/-- `PluginRegistry::unregister_plugin` (this variant has no deactivation
step: it checks existence and removes). -/
def PluginRegistry.unregister_plugin (r : PluginRegistry) (key : String) : RegResult :=
  if (alistLookup r.plugins key).isSome then
    ⟨⟨alistRemove r.plugins key⟩, .ok (),
      [.published ⟨"plugin:unregistered", key, none, none⟩]⟩
  else
    ⟨r, .error (.PluginNotFound key), []⟩

/-- Every entry of the registry has an empty dependency list. -/
def DepsEmpty (r : PluginRegistry) : Prop :=
  ∀ p ∈ r.plugins, p.2.dependencies = []

/-- Registry states reachable from `PluginRegistry::new` through the public
operations, for arbitrary plugins. -/
inductive ReachableR : PluginRegistry → Prop where
  | empty : ReachableR PluginRegistry.empty
  | register (r : PluginRegistry) (p : Plugin) :
      ReachableR r → ReachableR (r.register_plugin p).reg
  | initStep (r : PluginRegistry) (key : String) :
      ReachableR r → ReachableR (r.initialize_plugin key).reg
  | unregister (r : PluginRegistry) (key : String) :
      ReachableR r → ReachableR (r.unregister_plugin key).reg

theorem depsEmpty_initAfterDeps (r : PluginRegistry) (key : String) (effs : List Eff)
    (hr : DepsEmpty r) : DepsEmpty (initAfterDeps r key effs).reg := by
  unfold initAfterDeps
  split
  · exact hr
  · split
    · split
      · exact hr
      · exact hr
    · split
      · exact hr
      · rename_i entry hentry
        have hdep : entry.dependencies = [] := hr _ (alistLookup_mem hentry)
        split
        · intro q hq
          rcases mem_alistUpdate hq with h | h
          · exact hr q h
          · rw [h]
            exact hdep
        · intro q hq
          rcases mem_alistUpdate hq with h | h
          · exact hr q h
          · rw [h]
            exact hdep

theorem depsEmpty_initFuel (fuel : Nat) (r : PluginRegistry) (key : String)
    (hr : DepsEmpty r) : DepsEmpty (initFuel fuel r key).reg := by
  cases fuel with
  | zero => exact hr
  | succ fuel =>
    unfold initFuel
    split
    · exact hr
    · rename_i entry hentry
      have hdeps : entry.dependencies = [] :=
        hr _ (alistLookup_mem hentry)
      rw [hdeps]
      exact depsEmpty_initAfterDeps r key [] hr

theorem reachableR_deps_empty {r : PluginRegistry} (hr : ReachableR r) : DepsEmpty r := by
  induction hr with
  | empty => intro q hq; simp [PluginRegistry.empty] at hq
  | register r p _ ih =>
    unfold PluginRegistry.register_plugin
    split
    · exact ih
    · intro q hq
      rcases List.mem_append.mp hq with h | h
      · exact ih q h
      · simp only [List.mem_singleton] at h
        rw [h]
        rfl
  | initStep r key _ ih => exact depsEmpty_initFuel _ r key ih
  | unregister r key _ ih =>
    unfold PluginRegistry.unregister_plugin
    split
    · intro q hq
      exact ih q (mem_alistRemove hq)
    · exact ih

/-- The build-time feature-flag configuration consumed by `plugins/mod.rs`:
whether the cargo features `plugin-allviewer` and `plugin-findme` are
enabled.  Each `#[cfg(feature = ...)]` block of the source is modelled as a
conditional on this record, resolved once for the process lifetime. -/
structure Features where
  allviewer : Bool
  findme : Bool

/-- `allviewer::create_plugin` (`plugins/allviewer/mod.rs`): its lifecycle
callbacks store the context, publish a log event on the bus and return
`Ok(())`. -/
def allviewer_create_plugin : Plugin :=
  ⟨"allviewer",
    ⟨"allviewer", "ALL Viewing", "0.1.0",
      "フレキシブルサムネイル＆ポップアップビューワー", "Your Name"⟩,
    .ok (), .ok (), .ok ()⟩

/-- `findme::create_plugin` (`plugins/findme/mod.rs`): its lifecycle
callbacks store the context, publish a log event on the bus and return
`Ok(())`. -/
def findme_create_plugin : Plugin :=
  ⟨"findme",
    ⟨"findme", "FindMe Game", "0.1.0", "画像探しゲーム", "Your Name"⟩,
    .ok (), .ok (), .ok ()⟩

/-- The `Display` rendering of `PluginRegistryError` that `thiserror`
derives from the `#[error(...)]` attributes in `registry.rs`. -/
def PluginRegistryError.toMessage : PluginRegistryError → String
  | .PluginAlreadyExists pid => "Plugin with ID '" ++ pid ++ "' already exists"
  | .PluginNotFound pid => "Plugin with ID '" ++ pid ++ "' not found"
  | .InitializationFailed pid msg =>
      "Failed to initialize plugin '" ++ pid ++ "': " ++ msg
  | .LoadFailed path msg =>
      "Failed to load plugin from path '" ++ path ++ "': " ++ msg
  | .DependencyNotFound dep pid =>
      "Dependency '" ++ dep ++ "' required by plugin '" ++ pid ++ "' not found"
  | .OperationError msg => "Error during plugin operation: " ++ msg
  | .SystemError msg => "Plugin system error: " ++ msg

/-- `register_enabled_plugins` of `plugins/mod.rs`: register the AllViewer
plugin when its feature is compiled in, then the FindMe plugin when its
feature is compiled in; a registration failure is rendered to a string and
propagated, and a disabled feature contributes no code at all. -/
def register_enabled_plugins (flags : Features) (r : PluginRegistry) :
    PluginRegistry × Except String Unit × List Eff :=
  let step1 : PluginRegistry × Except String Unit × List Eff :=
    if flags.allviewer then
      let res := r.register_plugin allviewer_create_plugin
      match res.res with
      | .error e =>
        (res.reg, .error ("Failed to register AllViewer plugin: " ++ e.toMessage),
          res.effs)
      | .ok _ => (res.reg, .ok (), res.effs)
    else
      (r, .ok (), [])
  match step1 with
  | (r1, .error e, effs) => (r1, .error e, effs)
  | (r1, .ok _, effs) =>
    if flags.findme then
      let res := r1.register_plugin findme_create_plugin
      match res.res with
      | .error e =>
        (res.reg, .error ("Failed to register FindMe plugin: " ++ e.toMessage),
          effs ++ res.effs)
      | .ok _ => (res.reg, .ok (), effs ++ res.effs)
    else
      (r1, .ok (), effs)

/-- `get_enabled_plugins` of `plugins/mod.rs`. -/
def get_enabled_plugins (flags : Features) : List String :=
  (if flags.allviewer then ["allviewer"] else [])
    ++ (if flags.findme then ["findme"] else [])

/-- `EventPayload` of `event_bus.rs`, polymorphic in the JSON data type. -/
structure EventPayload (α : Type _) where
  event_type : String
  data : α
  source : Option String
  target : Option String

/-- A stored `EventHandler` closure: an identity (so invocations can be
counted) together with the function the closure computes. -/
structure Handler (α : Type _) where
  hid : Nat
  run : EventPayload α → Except String Unit

/-- `EventBus` of `event_bus.rs`: a handler vector per event type, and a
handler vector per component id and event type. -/
structure EventBus (α : Type _) where
  handlers : List (String × List (Handler α))
  component_handlers : List (String × List (String × List (Handler α)))

/-- A fresh bus, as built by `EventBus::new`. -/
def EventBus.empty (α : Type _) : EventBus α := ⟨[], []⟩

/-- `HashMap::entry(key).or_insert_with(..)` followed by an update of the
value: the model of the subscribe operations' map manipulation. -/
def alistUpsert {β : Type _} : List (String × β) → String → (Option β → β) →
    List (String × β)
  | [], key, f => [(key, f none)]
  | (k, v) :: rest, key, f =>
    if k = key then (k, f (some v)) :: rest else (k, v) :: alistUpsert rest key f

/-- `EventBus::subscribe`. -/
def EventBus.subscribe {α : Type _} (b : EventBus α) (et : String) (h : Handler α) :
    EventBus α :=
  { b with handlers := alistUpsert b.handlers et (fun old => old.getD [] ++ [h]) }

/-- `EventBus::subscribe_component`. -/
def EventBus.subscribe_component {α : Type _} (b : EventBus α)
    (comp et : String) (h : Handler α) : EventBus α :=
  { b with
    component_handlers :=
      alistUpsert b.component_handlers comp
        (fun old => alistUpsert (old.getD []) et (fun oldv => oldv.getD [] ++ [h])) }

/-- The handler vector globally subscribed to an event type (empty when
absent): `handlers.get(&payload.event_type)`. -/
def EventBus.globalBucket {α : Type _} (b : EventBus α) (et : String) :
    List (Handler α) :=
  (alistLookup b.handlers et).getD []

/-- The handler vector subscribed to a component for an event type (empty
when either level is absent). -/
def EventBus.componentBucket {α : Type _} (b : EventBus α) (comp et : String) :
    List (Handler α) :=
  ((alistLookup b.component_handlers comp).bind fun m => alistLookup m et).getD []

/-- `Vec::join(sep)` on the collected error strings. -/
def joinSep (sep : String) : List String → String
  | [] => ""
  | [x] => x
  | x :: xs => x ++ sep ++ joinSep sep xs

/-- `EventBus::dispatch_event`: run every matching global handler, then —
when a target is set — every matching component handler; every handler runs
even when earlier ones failed; the failure messages are collected and
joined, and the call succeeds only when none failed.  The second component
is the list of identities of the handlers invoked, in invocation order. -/
def EventBus.dispatch_event {α : Type _} (b : EventBus α) (p : EventPayload α) :
    Except String Unit × List Nat :=
  let globals := b.globalBucket p.event_type
  let comps :=
    match p.target with
    | some t => b.componentBucket t p.event_type
    | none => []
  let gErrs := globals.filterMap fun h =>
    match h.run p with
    | .ok _ => none
    | .error e => some ("Global handler error: " ++ e)
  let cErrs :=
    match p.target with
    | some t =>
      (b.componentBucket t p.event_type).filterMap fun h =>
        match h.run p with
        | .ok _ => none
        | .error e => some ("Component handler error for " ++ t ++ ": " ++ e)
    | none => []
  (if gErrs ++ cErrs = [] then .ok () else .error (joinSep "; " (gErrs ++ cErrs)),
    (globals ++ comps).map Handler.hid)

/-- `EventBus::publish`. -/
def EventBus.publish {α : Type _} (b : EventBus α) (et : String) (data : α) :
    Except String Unit × List Nat :=
  b.dispatch_event ⟨et, data, none, none⟩

/-- `EventBus::publish_to`. -/
def EventBus.publish_to {α : Type _} (b : EventBus α) (target et : String)
    (data : α) : Except String Unit × List Nat :=
  b.dispatch_event ⟨et, data, none, some target⟩

/-- The substring relation: `small` occurs contiguously inside `big`
(`big.contains(small)` on the Rust side). -/
def strContains (big small : String) : Prop :=
  small.data <:+: big.data

/-- The shared-data store of `plugin_context.rs`: a keyed map of type-erased
(`Box<dyn Any>`) values.  `U` is the universe of runtime type identities
(`TypeId`) and `Val` interprets each identity as a Lean type; a stored
value is a dependent pair of its type identity and a value of that type. -/
structure SharedStore (U : Type _) (Val : U → Type _) where
  data : List (String × Sigma Val)

/-- A store with no entries. -/
def SharedStore.empty (U : Type _) (Val : U → Type _) : SharedStore U Val := ⟨[]⟩

/-- `HashMap::insert`: store at the key, overwriting a prior value. -/
def storeInsert {U : Type _} {Val : U → Type _} :
    List (String × Sigma Val) → String → Sigma Val → List (String × Sigma Val)
  | [], key, v => [(key, v)]
  | (k, w) :: rest, key, v =>
    if k = key then (key, v) :: rest else (k, w) :: storeInsert rest key v

/-- `PluginContext::set_shared_data` (`plugin_context.rs`): box the value
with its type identity and insert it, overwriting any prior value at the
key.  The lock acquisition is modelled as succeeding. -/
def SharedStore.set_shared_data {U : Type _} {Val : U → Type _}
    (s : SharedStore U Val) (key : String) (v : Sigma Val) :
    SharedStore U Val × Except String Unit :=
  (⟨storeInsert s.data key v⟩, .ok ())

/-- `PluginContext::get_shared_data::<T>` (`plugin_context.rs`): absent key →
`Ok(None)`; present with matching type identity → `Ok(Some(clone))`;
present with a different identity (`downcast_ref` fails) → the
type-mismatch error. -/
def SharedStore.get_shared_data {U : Type _} {Val : U → Type _} [DecidableEq U]
    (s : SharedStore U Val) (u : U) (key : String) :
    Except String (Option (Val u)) :=
  match alistLookup s.data key with
  | none => .ok none
  | some ⟨u', v⟩ =>
    if h : u' = u then .ok (some (h ▸ v))
    else .error ("Type mismatch for key: " ++ key)

theorem string_data_append (a b : String) : (a ++ b).data = a.data ++ b.data := rfl

theorem strContains_of_mem_joinSep {sep : String} {l : List String} {m : String}
    (h : m ∈ l) : strContains (joinSep sep l) m := by
  induction l with
  | nil => simp at h
  | cons x xs ih =>
    cases xs with
    | nil =>
      simp only [List.mem_singleton] at h
      subst h
      exact List.infix_refl _
    | cons y ys =>
      rcases List.mem_cons.mp h with h | h
      · subst h
        show m.data <:+: (m ++ sep ++ joinSep sep (y :: ys)).data
        rw [string_data_append, string_data_append]
        exact ((List.prefix_append m.data sep.data).trans
          (List.prefix_append _ _)).isInfix
      · have hsuffix : (joinSep sep (y :: ys)).data
            <:+ (x ++ sep ++ joinSep sep (y :: ys)).data := by
          rw [string_data_append]
          exact List.suffix_append _ _
        exact (ih h).trans hsuffix.isInfix

theorem strContains_append_right (pre e : String) : strContains (pre ++ e) e := by
  show e.data <:+: (pre ++ e).data
  rw [string_data_append]
  exact (List.suffix_append _ _).isInfix

theorem handlerErrs_eq_nil {α : Type _} (p : EventPayload α) (fmt : String → String)
    (hs : List (Handler α)) :
    (hs.filterMap fun h =>
        match h.run p with
        | .ok _ => none
        | .error e => some (fmt e)) = []
      ↔ ∀ h ∈ hs, h.run p = .ok () := by
  rw [List.filterMap_eq_nil_iff]
  constructor
  · intro hall h hm
    have hh := hall h hm
    revert hh
    cases hrun : h.run p with
    | ok u =>
      cases u
      intro
      rfl
    | error e => simp
  · intro hall h hm
    rw [hall h hm]

theorem mem_handlerErrs {α : Type _} (p : EventPayload α) (fmt : String → String)
    {hs : List (Handler α)} {h : Handler α} {e : String}
    (hm : h ∈ hs) (hrun : h.run p = .error e) :
    fmt e ∈ hs.filterMap (fun h =>
      match h.run p with
      | .ok _ => none
      | .error e => some (fmt e)) :=
  List.mem_filterMap.mpr ⟨h, hm, by rw [hrun]⟩

/-- The result value `dispatch_event` builds from the collected error
strings: success only when no handler failed, otherwise the joined
aggregate. -/
def collectRes (gE cE : List String) : Except String Unit :=
  if gE ++ cE = [] then .ok () else .error (joinSep "; " (gE ++ cE))

theorem collect_spec {α : Type _} (p : EventPayload α) (G C : List (Handler α))
    (fmtG fmtC : String → String)
    (hfG : ∀ e, strContains (fmtG e) e) (hfC : ∀ e, strContains (fmtC e) e) :
    (collectRes
        (G.filterMap fun h =>
          match h.run p with
          | .ok _ => none
          | .error e => some (fmtG e))
        (C.filterMap fun h =>
          match h.run p with
          | .ok _ => none
          | .error e => some (fmtC e)) = .ok ()
      ↔ ∀ h ∈ G ++ C, h.run p = .ok ())
    ∧ (∀ h ∈ G ++ C, ∀ e, h.run p = .error e →
        ∃ agg,
          collectRes
            (G.filterMap fun h =>
              match h.run p with
              | .ok _ => none
              | .error e => some (fmtG e))
            (C.filterMap fun h =>
              match h.run p with
              | .ok _ => none
              | .error e => some (fmtC e)) = .error agg
          ∧ strContains agg e) := by
  generalize hgE : (G.filterMap fun h =>
    match h.run p with
    | .ok _ => none
    | .error e => some (fmtG e)) = gE
  generalize hcE : (C.filterMap fun h =>
    match h.run p with
    | .ok _ => none
    | .error e => some (fmtC e)) = cE
  have hGnil : gE = [] ↔ ∀ h ∈ G, h.run p = .ok () :=
    hgE ▸ handlerErrs_eq_nil p fmtG G
  have hCnil : cE = [] ↔ ∀ h ∈ C, h.run p = .ok () :=
    hcE ▸ handlerErrs_eq_nil p fmtC C
  have hGmem : ∀ {h : Handler α} {e : String}, h ∈ G → h.run p = .error e →
      fmtG e ∈ gE := fun hm hr => hgE ▸ mem_handlerErrs p fmtG hm hr
  have hCmem : ∀ {h : Handler α} {e : String}, h ∈ C → h.run p = .error e →
      fmtC e ∈ cE := fun hm hr => hcE ▸ mem_handlerErrs p fmtC hm hr
  constructor
  · unfold collectRes
    split
    · rename_i hnil
      rw [List.append_eq_nil] at hnil
      constructor
      · intro _ h hm
        rcases List.mem_append.mp hm with hm | hm
        · exact hGnil.mp hnil.1 h hm
        · exact hCnil.mp hnil.2 h hm
      · intro _
        rfl
    · rename_i hnil
      constructor
      · intro hok
        exact Except.noConfusion hok
      · intro hall
        refine absurd (List.append_eq_nil.mpr ⟨?_, ?_⟩) hnil
        · exact hGnil.mpr fun h hm => hall h (List.mem_append.mpr (Or.inl hm))
        · exact hCnil.mpr fun h hm => hall h (List.mem_append.mpr (Or.inr hm))
  · intro h hm e hrun
    have hne : gE ++ cE ≠ [] := by
      rcases List.mem_append.mp hm with hm | hm
      · exact List.ne_nil_of_mem (List.mem_append.mpr (Or.inl (hGmem hm hrun)))
      · exact List.ne_nil_of_mem (List.mem_append.mpr (Or.inr (hCmem hm hrun)))
    refine ⟨joinSep "; " (gE ++ cE), ?_, ?_⟩
    · unfold collectRes
      rw [if_neg hne]
    · rcases List.mem_append.mp hm with hm | hm
      · exact List.IsInfix.trans (hfG e)
          (strContains_of_mem_joinSep (List.mem_append.mpr (Or.inl (hGmem hm hrun))))
      · exact List.IsInfix.trans (hfC e)
          (strContains_of_mem_joinSep (List.mem_append.mpr (Or.inr (hCmem hm hrun))))

/-- Claim C3: `publish_to(target, event_type, data)` invokes every global
subscriber of the event type exactly once and then every subscriber of the
target component for the event type exactly once (even when earlier handlers
fail); it succeeds iff no invoked handler failed, and otherwise returns one
aggregate error string containing every individual failure message. -/
theorem eventbus_publish_to_spec {α : Type _} (b : EventBus α)
    (target et : String) (data : α) :
    (b.publish_to target et data).2
        = (b.globalBucket et).map Handler.hid
          ++ (b.componentBucket target et).map Handler.hid
    ∧ ((b.publish_to target et data).1 = .ok () ↔
        ∀ h ∈ b.globalBucket et ++ b.componentBucket target et,
          h.run ⟨et, data, none, some target⟩ = .ok ())
    ∧ (∀ h ∈ b.globalBucket et ++ b.componentBucket target et, ∀ e,
        h.run ⟨et, data, none, some target⟩ = .error e →
          ∃ agg, (b.publish_to target et data).1 = .error agg
            ∧ strContains agg e) := by
  have hcore := collect_spec (⟨et, data, none, some target⟩ : EventPayload α)
    (b.globalBucket et) (b.componentBucket target et)
    (fun e => "Global handler error: " ++ e)
    (fun e => "Component handler error for " ++ target ++ ": " ++ e)
    (fun e => strContains_append_right _ e)
    (fun e => strContains_append_right _ e)
  exact ⟨List.map_append _ _ _, hcore.1, hcore.2⟩

theorem alistLookup_storeInsert_self {U : Type _} {Val : U → Type _}
    (l : List (String × Sigma Val)) (key : String) (v : Sigma Val) :
    alistLookup (storeInsert l key v) key = some v := by
  induction l with
  | nil => simp [storeInsert, alistLookup]
  | cons q rest ih =>
    obtain ⟨k, w⟩ := q
    by_cases hk : k = key
    · simp [storeInsert, alistLookup, hk]
    · simp [storeInsert, alistLookup, hk, ih]

/-- Claim C5: `get_shared_data` returns `Ok(None)` on an absent key, a clone
of the stored value when the stored type identity matches the requested one,
and the type-mismatch error when it differs; `set_shared_data` succeeds and
stores the value at the key, overwriting any prior value there. -/
theorem shared_data_spec {U : Type _} {Val : U → Type _} [DecidableEq U]
    (s : SharedStore U Val) (key : String) (u : U) :
    (alistLookup s.data key = none → s.get_shared_data u key = .ok none)
    ∧ (∀ v : Val u, alistLookup s.data key = some ⟨u, v⟩ →
        s.get_shared_data u key = .ok (some v))
    ∧ (∀ w : Sigma Val, alistLookup s.data key = some w → w.1 ≠ u →
        s.get_shared_data u key = .error ("Type mismatch for key: " ++ key))
    ∧ (∀ v : Sigma Val,
        (s.set_shared_data key v).2 = .ok ()
        ∧ alistLookup (s.set_shared_data key v).1.data key = some v) := by
  refine ⟨?_, ?_, ?_, ?_⟩
  · intro h
    unfold SharedStore.get_shared_data
    rw [h]
  · intro v hv
    unfold SharedStore.get_shared_data
    rw [hv]
    dsimp only
    rw [dif_pos rfl]
  · intro w hv hne
    obtain ⟨u', v'⟩ := w
    have hne' : u' ≠ u := hne
    unfold SharedStore.get_shared_data
    rw [hv]
    dsimp only
    rw [dif_neg hne']
  · intro v
    exact ⟨rfl, alistLookup_storeInsert_self s.data key v⟩

/-- Claim C7: a second `register_plugin` with an already-registered id fails
with `PluginAlreadyExists`, publishes nothing, and leaves the registry — in
particular its plugin count and its set of entries — unchanged. -/
theorem register_duplicate_spec (r : PluginRegistry) (p : Plugin)
    (h : (alistLookup r.plugins p.pid).isSome = true) :
    r.register_plugin p
        = ⟨r, .error (.PluginAlreadyExists p.pid), []⟩
    ∧ (r.register_plugin p).reg.get_plugin_count = r.get_plugin_count := by
  unfold PluginRegistry.register_plugin
  rw [if_pos h]
  exact ⟨rfl, rfl⟩

/-- Claim C2: `PluginRegistry::initialize_plugin` on a registered id is a
successful no-op when the entry is already `Initialized` or `Active`, fails
when the entry is `Error`, and on a `Registered` entry invokes the
`initialize` callback, transitioning to `Initialized` (publishing
`plugin:initialized`) on success or to `Error` (publishing `plugin:error`
with operation `initialize`, and returning `InitializationFailed`) on
failure. -/
theorem registry_initialize_spec (r : PluginRegistry) (key : String)
    (hr : ReachableR r) (entry : RegistryEntry)
    (hlook : alistLookup r.plugins key = some entry) :
    ((entry.state = .Initialized ∨ entry.state = .Active) →
      r.initialize_plugin key = ⟨r, .ok (), []⟩)
    ∧ (entry.state = .Error →
      r.initialize_plugin key
        = ⟨r, .error (.OperationError ("Plugin '" ++ key ++ "' is in error state")),
            []⟩)
    ∧ (entry.state = .Registered → entry.plugin.initRes = .ok () →
        r.initialize_plugin key
          = ⟨⟨alistUpdate r.plugins key
                { entry with state := .Initialized, error := none }⟩,
              .ok (),
              [.callInit key, .published ⟨"plugin:initialized", key, none, none⟩]⟩
        ∧ alistLookup (r.initialize_plugin key).reg.plugins key
            = some { entry with state := .Initialized, error := none })
    ∧ (∀ e, entry.state = .Registered → entry.plugin.initRes = .error e →
        r.initialize_plugin key
          = ⟨⟨alistUpdate r.plugins key
                { entry with state := .Error, error := some e }⟩,
              .error (.InitializationFailed key e),
              [.callInit key,
                .published ⟨"plugin:error", key, some e, some "initialize"⟩]⟩
        ∧ alistLookup (r.initialize_plugin key).reg.plugins key
            = some { entry with state := .Error, error := some e }) := by
  have hdeps : entry.dependencies = [] :=
    reachableR_deps_empty hr _ (alistLookup_mem hlook)
  have hstep : r.initialize_plugin key = initAfterDeps r key [] := by
    unfold PluginRegistry.initialize_plugin initFuel
    rw [hlook]
    dsimp only
    rw [hdeps]
    rfl
  refine ⟨?_, ?_, ?_, ?_⟩
  · intro hst
    rw [hstep]
    unfold initAfterDeps PluginRegistry.get_plugin_state
    rw [hlook]
    dsimp only
    rcases hst with hst | hst <;> rw [hst] <;> rfl
  · intro hst
    rw [hstep]
    unfold initAfterDeps PluginRegistry.get_plugin_state
    rw [hlook]
    dsimp only
    rw [hst]
    rfl
  · intro hst hi
    have hres : r.initialize_plugin key
        = ⟨⟨alistUpdate r.plugins key
              { entry with state := .Initialized, error := none }⟩,
            .ok (),
            [.callInit key, .published ⟨"plugin:initialized", key, none, none⟩]⟩ := by
      rw [hstep]
      unfold initAfterDeps PluginRegistry.get_plugin_state
      rw [hlook]
      dsimp only
      rw [hst]
      rw [if_neg (fun hc => hc rfl)]
      rw [hi]
      rfl
    refine ⟨hres, ?_⟩
    rw [hres]
    dsimp only
    rw [alistLookup_update_self, hlook]
    rfl
  · intro e hst hi
    have hres : r.initialize_plugin key
        = ⟨⟨alistUpdate r.plugins key
              { entry with state := .Error, error := some e }⟩,
            .error (.InitializationFailed key e),
            [.callInit key, .published ⟨"plugin:error", key, some e, some "initialize"⟩]⟩ := by
      rw [hstep]
      unfold initAfterDeps PluginRegistry.get_plugin_state
      rw [hlook]
      dsimp only
      rw [hst]
      rw [if_neg (fun hc => hc rfl)]
      rw [hi]
      rfl
    refine ⟨hres, ?_⟩
    rw [hres]
    dsimp only
    rw [alistLookup_update_self, hlook]
    rfl

/-- Claim C1: `PluginManager::activate_plugin` on a `Registered` entry whose
callbacks succeed auto-initializes and then activates it — the entry passes
through `Registered`, `Initialized` (the state after the embedded
`initialize_plugin` stage) and `Active`, and exactly the events
`plugin:initialized` then `plugin:activated` are published, in that order;
on an `Active` entry the call is a successful no-op; on an `Error` entry the
call fails and the returned message surfaces the stored error message. -/
theorem manager_activate_spec (m : PluginManager) (key : String)
    (reg : PluginRegistration) (hlook : alistLookup m.plugins key = some reg) :
    (reg.state = .Registered → reg.plugin.initRes = .ok () →
      reg.plugin.actRes = .ok () →
      (m.activate_plugin key).res = .ok ()
      ∧ alistLookup (m.initialize_plugin key).mgr.plugins key
          = some { reg with state := .Initialized, error := none }
      ∧ alistLookup (m.activate_plugin key).mgr.plugins key
          = some { reg with state := .Active, error := none }
      ∧ eventsOf (m.activate_plugin key).effs
          = [⟨"plugin:initialized", key, none, none⟩,
              ⟨"plugin:activated", key, none, none⟩])
    ∧ (reg.state = .Active → m.activate_plugin key = ⟨m, .ok (), []⟩)
    ∧ (∀ msg, reg.state = .Error → reg.error = some msg →
        m.activate_plugin key
          = ⟨m, .error ("Cannot activate plugin in error state: " ++ msg), []⟩) := by
  refine ⟨?_, ?_, ?_⟩
  · intro hst hi ha
    have hinit : m.initialize_plugin key
        = ⟨⟨alistUpdate m.plugins key { reg with state := .Initialized, error := none }⟩,
            .ok (), [.callInit key,
              .published ⟨"plugin:initialized", key, none, none⟩]⟩ := by
      unfold PluginManager.initialize_plugin
      rw [hlook]
      dsimp only
      rw [hst]
      rw [if_neg (fun hc => hc rfl)]
      rw [hi]
    have hlook1 : alistLookup
        (alistUpdate m.plugins key { reg with state := .Initialized, error := none }) key
        = some { reg with state := .Initialized, error := none } := by
      rw [alistLookup_update_self, hlook]
      rfl
    have hact : (⟨alistUpdate m.plugins key
          { reg with state := .Initialized, error := none }⟩ : PluginManager).runActivate
            key
        = ⟨⟨alistUpdate
              (alistUpdate m.plugins key { reg with state := .Initialized, error := none })
              key { reg with state := .Active, error := none }⟩,
            .ok (), [.callActivate key,
              .published ⟨"plugin:activated", key, none, none⟩]⟩ := by
      unfold PluginManager.runActivate
      dsimp only
      rw [hlook1]
      dsimp only
      rw [ha]
    have hfull : m.activate_plugin key
        = ⟨⟨alistUpdate
              (alistUpdate m.plugins key { reg with state := .Initialized, error := none })
              key { reg with state := .Active, error := none }⟩,
            .ok (),
            [.callInit key, .published ⟨"plugin:initialized", key, none, none⟩,
              .callActivate key, .published ⟨"plugin:activated", key, none, none⟩]⟩ := by
      unfold PluginManager.activate_plugin
      rw [hlook]
      dsimp only
      rw [hst]
      rw [if_pos rfl]
      rw [hinit]
      dsimp only
      rw [hact]
      rfl
    refine ⟨?_, ?_, ?_, ?_⟩
    · rw [hfull]
    · rw [hinit]
      exact hlook1
    · rw [hfull]
      dsimp only
      rw [alistLookup_update_self, hlook1]
      rfl
    · rw [hfull]
      rfl
  · intro hst
    unfold PluginManager.activate_plugin
    rw [hlook]
    dsimp only
    rw [hst]
    rfl
  · intro msg hst herr
    unfold PluginManager.activate_plugin
    rw [hlook]
    dsimp only
    rw [hst, herr]
    rfl

/-- Claim C9: `PluginManager::deactivate_plugin` on an entry that is not
`Active` is a successful no-op that invokes no callback and publishes
nothing; on an `Active` entry it invokes `deactivate` and transitions to
`Inactive` (publishing `plugin:deactivated`) on success or to `Error`
(publishing `plugin:error` with operation `deactivate`) on failure. -/
theorem manager_deactivate_spec (m : PluginManager) (key : String)
    (reg : PluginRegistration) (hlook : alistLookup m.plugins key = some reg) :
    (reg.state ≠ .Active → m.deactivate_plugin key = ⟨m, .ok (), []⟩)
    ∧ (reg.state = .Active → reg.plugin.deactRes = .ok () →
        m.deactivate_plugin key
          = ⟨⟨alistUpdate m.plugins key { reg with state := .Inactive, error := none }⟩,
              .ok (), [.callDeactivate key,
                .published ⟨"plugin:deactivated", key, none, none⟩]⟩)
    ∧ (∀ e, reg.state = .Active → reg.plugin.deactRes = .error e →
        m.deactivate_plugin key
          = ⟨⟨alistUpdate m.plugins key { reg with state := .Error, error := some e }⟩,
              .error e,
              [.callDeactivate key,
                .published ⟨"plugin:error", key, some e, some "deactivate"⟩]⟩) := by
  refine ⟨?_, ?_, ?_⟩
  · intro hst
    unfold PluginManager.deactivate_plugin
    rw [hlook]
    dsimp only
    rw [if_pos hst]
  · intro hst hd
    unfold PluginManager.deactivate_plugin
    rw [hlook]
    dsimp only
    rw [hst]
    rw [if_neg (fun hc => hc rfl)]
    rw [hd]
  · intro e hst hd
    unfold PluginManager.deactivate_plugin
    rw [hlook]
    dsimp only
    rw [hst]
    rw [if_neg (fun hc => hc rfl)]
    rw [hd]

/-- The keys of the manager's map are pairwise distinct, as the keys of a
`HashMap` are. -/
def KeysNodup (m : PluginManager) : Prop :=
  (m.plugins.map Prod.fst).Nodup

theorem alistLookup_eq_none_iff {β : Type _} (l : List (String × β)) (key : String) :
    alistLookup l key = none ↔ key ∉ l.map Prod.fst := by
  induction l with
  | nil => simp [alistLookup]
  | cons q rest ih =>
    obtain ⟨k, v⟩ := q
    by_cases hk : k = key
    · subst hk
      simp [alistLookup]
    · simp only [alistLookup, if_neg hk, List.map_cons, List.mem_cons]
      rw [ih]
      constructor
      · intro hnm h
        rcases h with h | h
        · exact hk h.symm
        · exact hnm h
      · intro hnm h
        exact hnm (Or.inr h)

theorem keys_alistUpdate {β : Type _} (l : List (String × β)) (key : String) (w : β) :
    (alistUpdate l key w).map Prod.fst = l.map Prod.fst := by
  induction l with
  | nil => simp [alistUpdate]
  | cons q rest ih =>
    obtain ⟨k, v⟩ := q
    by_cases hk : k = key
    · simp [alistUpdate, hk]
    · simp [alistUpdate, hk, ih]

theorem alistRemove_sublist {β : Type _} (l : List (String × β)) (key : String) :
    List.Sublist (alistRemove l key) l := by
  induction l with
  | nil => simp [alistRemove]
  | cons q rest ih =>
    obtain ⟨k, v⟩ := q
    by_cases hk : k = key
    · simp only [alistRemove, if_pos hk]
      exact List.sublist_cons_self _ _
    · simp only [alistRemove, if_neg hk]
      exact ih.cons₂ _

theorem alistLookup_remove_self {β : Type _} {l : List (String × β)}
    (hnd : (l.map Prod.fst).Nodup) (key : String) :
    alistLookup (alistRemove l key) key = none := by
  induction l with
  | nil => rfl
  | cons q rest ih =>
    obtain ⟨k, v⟩ := q
    simp only [List.map_cons, List.nodup_cons] at hnd
    by_cases hk : k = key
    · subst hk
      simp only [alistRemove, if_pos rfl]
      exact (alistLookup_eq_none_iff rest k).mpr hnd.1
    · simp only [alistRemove, if_neg hk, alistLookup, if_neg hk]
      exact ih hnd.2

theorem keysNodup_register (m : PluginManager) (p : Plugin) (hm : KeysNodup m) :
    KeysNodup (m.register_plugin p).mgr := by
  unfold PluginManager.register_plugin
  split
  · exact hm
  · rename_i hnone
    have hno : alistLookup m.plugins p.pid = none := by
      cases h : alistLookup m.plugins p.pid with
      | none => rfl
      | some v => exact absurd (by rw [h]; rfl) hnone
    unfold KeysNodup
    dsimp only
    rw [List.map_append]
    rw [List.nodup_append]
    refine ⟨hm, List.nodup_singleton _, ?_⟩
    intro a ha hb
    simp only [List.map_cons, List.map_nil, List.mem_singleton] at hb
    subst hb
    exact (alistLookup_eq_none_iff m.plugins p.pid).mp hno ha

theorem keysNodup_initialize_plugin (m : PluginManager) (key : String) (hm : KeysNodup m) :
    KeysNodup (m.initialize_plugin key).mgr := by
  unfold PluginManager.initialize_plugin
  split
  · exact hm
  · split
    · exact hm
    · split
      · unfold KeysNodup
        dsimp only
        rw [keys_alistUpdate]
        exact hm
      · unfold KeysNodup
        dsimp only
        rw [keys_alistUpdate]
        exact hm

theorem keysNodup_runActivate (m : PluginManager) (key : String) (hm : KeysNodup m) :
    KeysNodup (m.runActivate key).mgr := by
  unfold PluginManager.runActivate
  split
  · exact hm
  · split
    · unfold KeysNodup
      dsimp only
      rw [keys_alistUpdate]
      exact hm
    · unfold KeysNodup
      dsimp only
      rw [keys_alistUpdate]
      exact hm

theorem keysNodup_activate (m : PluginManager) (key : String) (hm : KeysNodup m) :
    KeysNodup (m.activate_plugin key).mgr := by
  unfold PluginManager.activate_plugin
  split
  · exact hm
  · split
    · dsimp only
      split
      · exact keysNodup_initialize_plugin m key hm
      · exact keysNodup_runActivate _ key (keysNodup_initialize_plugin m key hm)
    · split
      · exact hm
      · split
        · exact hm
        · exact keysNodup_runActivate m key hm

theorem keysNodup_deactivate (m : PluginManager) (key : String) (hm : KeysNodup m) :
    KeysNodup (m.deactivate_plugin key).mgr := by
  unfold PluginManager.deactivate_plugin
  split
  · exact hm
  · split
    · exact hm
    · split
      · unfold KeysNodup
        dsimp only
        rw [keys_alistUpdate]
        exact hm
      · unfold KeysNodup
        dsimp only
        rw [keys_alistUpdate]
        exact hm

theorem keysNodup_unregister (m : PluginManager) (key : String) (hm : KeysNodup m) :
    KeysNodup (m.unregister_plugin key).mgr := by
  unfold PluginManager.unregister_plugin
  split
  · exact hm
  · rename_i st heq
    dsimp only
    by_cases hst : st = PluginState.Active
    · simp only [if_pos hst]
      have hd := keysNodup_deactivate m key hm
      split
      · exact hd
      · split
        · unfold KeysNodup
          dsimp only
          exact hd.sublist ((alistRemove_sublist _ _).map _)
        · exact hd
    · simp only [if_neg hst]
      split
      · unfold KeysNodup
        dsimp only
        exact hm.sublist ((alistRemove_sublist _ _).map _)
      · exact hm

theorem reachableM_keysNodup {m : PluginManager} (hm : ReachableM m) : KeysNodup m := by
  induction hm with
  | empty => exact List.nodup_nil
  | register m p _ ih => exact keysNodup_register m p ih
  | initStep m key _ ih => exact keysNodup_initialize_plugin m key ih
  | activate m key _ ih => exact keysNodup_activate m key ih
  | deactivate m key _ ih => exact keysNodup_deactivate m key ih
  | unregister m key _ ih => exact keysNodup_unregister m key ih

theorem keys_deactivate (m : PluginManager) (key : String) :
    (m.deactivate_plugin key).mgr.plugins.map Prod.fst = m.plugins.map Prod.fst := by
  unfold PluginManager.deactivate_plugin
  split
  · rfl
  · split
    · rfl
    · split
      · dsimp only
        rw [keys_alistUpdate]
      · dsimp only
        rw [keys_alistUpdate]

theorem unregister_ok_removed (m : PluginManager) (key : String) (hnd : KeysNodup m)
    (hok : (m.unregister_plugin key).res = .ok ()) :
    alistLookup (m.unregister_plugin key).mgr.plugins key = none := by
  unfold PluginManager.unregister_plugin at hok ⊢
  cases hgs : m.get_plugin_state key with
  | error e =>
    rw [hgs] at hok
    dsimp only at hok
    exact Except.noConfusion hok
  | ok st =>
    rw [hgs] at hok
    dsimp only at hok ⊢
    by_cases hst : st = PluginState.Active
    · rw [if_pos hst] at hok ⊢
      cases hr : (m.deactivate_plugin key).res with
      | error e =>
        rw [hr] at hok
        dsimp only at hok
        exact Except.noConfusion hok
      | ok u =>
        cases u
        rw [hr] at hok
        dsimp only at hok ⊢
        by_cases hs : (alistLookup (m.deactivate_plugin key).mgr.plugins key).isSome = true
        · rw [if_pos hs]
          dsimp only
          apply alistLookup_remove_self
          rw [keys_deactivate]
          exact hnd
        · rw [if_neg hs] at hok
          exact Except.noConfusion hok
    · rw [if_neg hst] at hok ⊢
      dsimp only at hok ⊢
      by_cases hs : (alistLookup m.plugins key).isSome = true
      · rw [if_pos hs]
        dsimp only
        exact alistLookup_remove_self hnd key
      · rw [if_neg hs] at hok
        exact Except.noConfusion hok

/-- Claim C8: `PluginManager::unregister_plugin` fails with the
plugin-not-found error when no entry exists; on an `Active` entry (whose
`deactivate` callback succeeds) it first deactivates — invoking the
callback and publishing `plugin:deactivated` — and then removes the entry,
publishing `plugin:unregistered`; and after any successful call a
subsequent `get_plugin_state` fails with the plugin-not-found error. -/
theorem manager_unregister_spec (m : PluginManager) (key : String)
    (hm : ReachableM m) :
    (alistLookup m.plugins key = none →
      m.unregister_plugin key
        = ⟨m, .error ("Plugin with ID '" ++ key ++ "' not found"), []⟩)
    ∧ (∀ reg, alistLookup m.plugins key = some reg → reg.state = .Active →
        reg.plugin.deactRes = .ok () →
        (m.unregister_plugin key).res = .ok ()
        ∧ Eff.callDeactivate key ∈ (m.unregister_plugin key).effs
        ∧ (m.unregister_plugin key).mgr.get_plugin_state key
            = .error ("Plugin with ID '" ++ key ++ "' not found")
        ∧ eventsOf (m.unregister_plugin key).effs
            = [⟨"plugin:deactivated", key, none, none⟩,
                ⟨"plugin:unregistered", key, none, none⟩])
    ∧ ((m.unregister_plugin key).res = .ok () →
        (m.unregister_plugin key).mgr.get_plugin_state key
          = .error ("Plugin with ID '" ++ key ++ "' not found")) := by
  refine ⟨?_, ?_, ?_⟩
  · intro hnone
    have hgs : m.get_plugin_state key
        = .error ("Plugin with ID '" ++ key ++ "' not found") := by
      unfold PluginManager.get_plugin_state
      rw [hnone]
    unfold PluginManager.unregister_plugin
    rw [hgs]
  · intro reg hlook hst hd
    have hgs : m.get_plugin_state key = .ok PluginState.Active := by
      unfold PluginManager.get_plugin_state
      rw [hlook]
      dsimp only
      rw [hst]
    have hdeact : m.deactivate_plugin key
        = ⟨⟨alistUpdate m.plugins key { reg with state := .Inactive, error := none }⟩,
            .ok (), [.callDeactivate key,
              .published ⟨"plugin:deactivated", key, none, none⟩]⟩ := by
      unfold PluginManager.deactivate_plugin
      rw [hlook]
      dsimp only
      rw [hst]
      rw [if_neg (fun hc => hc rfl)]
      rw [hd]
    have hlook2 : alistLookup
        (alistUpdate m.plugins key { reg with state := .Inactive, error := none }) key
        = some { reg with state := .Inactive, error := none } := by
      rw [alistLookup_update_self, hlook]
      rfl
    have hfull : m.unregister_plugin key
        = ⟨⟨alistRemove
              (alistUpdate m.plugins key { reg with state := .Inactive, error := none })
              key⟩,
            .ok (),
            [.callDeactivate key, .published ⟨"plugin:deactivated", key, none, none⟩,
              .published ⟨"plugin:unregistered", key, none, none⟩]⟩ := by
      unfold PluginManager.unregister_plugin
      rw [hgs]
      dsimp only
      rw [if_pos rfl]
      rw [hdeact]
      dsimp only
      rw [hlook2]
      rfl
    have hrm : alistLookup
        (alistRemove
          (alistUpdate m.plugins key { reg with state := .Inactive, error := none })
          key) key = none := by
      apply alistLookup_remove_self
      rw [keys_alistUpdate]
      exact reachableM_keysNodup hm
    refine ⟨?_, ?_, ?_, ?_⟩
    · rw [hfull]
    · rw [hfull]
      simp
    · rw [hfull]
      unfold PluginManager.get_plugin_state
      dsimp only
      rw [hrm]
    · rw [hfull]
      rfl
  · intro hok
    have hrm := unregister_ok_removed m key (reachableM_keysNodup hm) hok
    unfold PluginManager.get_plugin_state
    rw [hrm]

/-- Claim C6 (amended): in every reachable manager state, an entry in
`Error` state carries an error message — its `error` field is set, holding
exactly the message the failing callback returned, which the code does not
require to be non-empty — and `Error` is absorbing: `initialize_plugin`,
`activate_plugin` and `deactivate_plugin` leave an `Error` entry untouched
(the first two fail, the last is a successful no-op). -/
theorem manager_error_state_spec (m : PluginManager) (hm : ReachableM m) :
    ∀ key reg, alistLookup m.plugins key = some reg → reg.state = .Error →
      reg.error ≠ none
      ∧ alistLookup (m.initialize_plugin key).mgr.plugins key = some reg
      ∧ alistLookup (m.activate_plugin key).mgr.plugins key = some reg
      ∧ alistLookup (m.deactivate_plugin key).mgr.plugins key = some reg := by
  intro key reg hlook hst
  refine ⟨(reachableM_inv hm _ (alistLookup_mem hlook)).1 hst, ?_, ?_, ?_⟩
  · have heq : m.initialize_plugin key
        = ⟨m, .error ("Plugin '" ++ key ++ "' is not in a registerable state"), []⟩ := by
      unfold PluginManager.initialize_plugin
      rw [hlook]
      dsimp only
      rw [hst]
      rfl
    rw [heq]
    exact hlook
  · have heq : m.activate_plugin key
        = ⟨m, .error ("Cannot activate plugin in error state: "
            ++ (reg.error.getD "Unknown error")), []⟩ := by
      unfold PluginManager.activate_plugin
      rw [hlook]
      dsimp only
      rw [hst]
      rfl
    rw [heq]
    exact hlook
  · have heq : m.deactivate_plugin key = ⟨m, .ok (), []⟩ := by
      unfold PluginManager.deactivate_plugin
      rw [hlook]
      dsimp only
      rw [hst]
      rfl
    rw [heq]
    exact hlook

/-- A plugin whose `initialize` callback fails with the empty message. -/
def emptyMsgPlugin : Plugin :=
  ⟨"p6", ⟨"p6", "Plugin Six", "0.1.0", "a test double", "tester"⟩,
    .error "", .ok (), .ok ()⟩

/-- A reachable manager holding an `Error` entry with an empty stored
message: register `emptyMsgPlugin`, then initialize it. -/
def cexMgrC6 : PluginManager :=
  ((PluginManager.empty.register_plugin emptyMsgPlugin).mgr.initialize_plugin
    "p6").mgr

/-- Counterexample to claim C6 as stated: a reachable manager state holds an
entry in `Error` state whose stored error message is the empty string — the
code stores exactly the failing callback's message and never enforces
non-emptiness. -/
theorem manager_error_empty_message_cex :
    ReachableM cexMgrC6
    ∧ (∃ reg, alistLookup cexMgrC6.plugins "p6" = some reg
        ∧ reg.state = .Error ∧ reg.error = some "" ∧ "".length = 0) := by
  constructor
  · exact ReachableM.initStep _ _ (ReachableM.register _ _ ReachableM.empty)
  · exact ⟨⟨emptyMsgPlugin, .Error, some ""⟩, rfl, rfl, rfl, rfl⟩

theorem initialize_ok_error_none (m : PluginManager) (key : String)
    (hok : (m.initialize_plugin key).res = .ok ()) :
    ∃ reg, alistLookup (m.initialize_plugin key).mgr.plugins key = some reg
      ∧ reg.error = none := by
  unfold PluginManager.initialize_plugin at hok ⊢
  cases hl : alistLookup m.plugins key with
  | none =>
    rw [hl] at hok
    exact Except.noConfusion hok
  | some reg =>
    rw [hl] at hok
    dsimp only at hok ⊢
    by_cases hst : reg.state ≠ PluginState.Registered
    · rw [if_pos hst] at hok
      exact Except.noConfusion hok
    · rw [if_neg hst] at hok ⊢
      cases hi : reg.plugin.initRes with
      | error e =>
        rw [hi] at hok
        exact Except.noConfusion hok
      | ok u =>
        cases u
        refine ⟨{ reg with state := .Initialized, error := none }, ?_, rfl⟩
        dsimp only
        rw [alistLookup_update_self, hl]
        rfl

theorem runActivate_ok_error_none (m : PluginManager) (key : String)
    (hok : (m.runActivate key).res = .ok ()) :
    ∃ reg, alistLookup (m.runActivate key).mgr.plugins key = some reg
      ∧ reg.error = none := by
  unfold PluginManager.runActivate at hok ⊢
  cases hl : alistLookup m.plugins key with
  | none =>
    rw [hl] at hok
    exact Except.noConfusion hok
  | some reg =>
    rw [hl] at hok
    dsimp only at hok ⊢
    cases ha : reg.plugin.actRes with
    | error e =>
      rw [ha] at hok
      exact Except.noConfusion hok
    | ok u =>
      cases u
      refine ⟨{ reg with state := .Active, error := none }, ?_, rfl⟩
      dsimp only
      rw [alistLookup_update_self, hl]
      rfl

theorem activate_ok_error_none (m : PluginManager) (key : String)
    (hok : (m.activate_plugin key).res = .ok ())
    (hcb : Eff.callActivate key ∈ (m.activate_plugin key).effs) :
    ∃ reg, alistLookup (m.activate_plugin key).mgr.plugins key = some reg
      ∧ reg.error = none := by
  unfold PluginManager.activate_plugin at hok hcb ⊢
  cases hl : alistLookup m.plugins key with
  | none =>
    rw [hl] at hok
    exact Except.noConfusion hok
  | some reg =>
    rw [hl] at hok hcb
    dsimp only at hok hcb ⊢
    by_cases hst : reg.state = PluginState.Registered
    · rw [if_pos hst] at hok hcb ⊢
      cases hr : (m.initialize_plugin key).res with
      | error e =>
        rw [hr] at hok
        exact Except.noConfusion hok
      | ok u =>
        cases u
        rw [hr] at hok hcb
        dsimp only at hok hcb ⊢
        exact runActivate_ok_error_none _ key hok
    · rw [if_neg hst] at hok hcb ⊢
      by_cases hac : reg.state = PluginState.Active
      · rw [if_pos hac] at hcb
        exact absurd hcb (List.not_mem_nil _)
      · rw [if_neg hac] at hok hcb ⊢
        by_cases her : reg.state = PluginState.Error
        · rw [if_pos her] at hok
          exact Except.noConfusion hok
        · rw [if_neg her] at hok hcb ⊢
          exact runActivate_ok_error_none m key hok

theorem deactivate_ok_error_none (m : PluginManager) (key : String)
    (hok : (m.deactivate_plugin key).res = .ok ())
    (hcb : Eff.callDeactivate key ∈ (m.deactivate_plugin key).effs) :
    ∃ reg, alistLookup (m.deactivate_plugin key).mgr.plugins key = some reg
      ∧ reg.error = none := by
  unfold PluginManager.deactivate_plugin at hok hcb ⊢
  cases hl : alistLookup m.plugins key with
  | none =>
    rw [hl] at hok
    exact Except.noConfusion hok
  | some reg =>
    rw [hl] at hok hcb
    dsimp only at hok hcb ⊢
    by_cases hst : reg.state ≠ PluginState.Active
    · rw [if_pos hst] at hcb
      exact absurd hcb (List.not_mem_nil _)
    · rw [if_neg hst] at hok hcb ⊢
      cases hd : reg.plugin.deactRes with
      | error e =>
        rw [hd] at hok
        exact Except.noConfusion hok
      | ok u =>
        cases u
        refine ⟨{ reg with state := .Inactive, error := none }, ?_, rfl⟩
        dsimp only
        rw [alistLookup_update_self, hl]
        rfl

/-- Claim C10 (amended): a successful lifecycle call that actually invoked
the plugin callback leaves the entry's `error` field cleared, and in every
reachable manager state `get_plugin_error` returns `None` for every entry
whose state is not `Error`; a successful no-op call (such as
`deactivate_plugin` on a non-`Active` — including `Error` — entry) leaves
the entry, including any stored error, untouched. -/
theorem manager_error_cleared_spec (m : PluginManager) (hm : ReachableM m) :
    (∀ key reg, alistLookup m.plugins key = some reg → reg.state ≠ .Error →
      reg.error = none)
    ∧ (∀ key st, m.get_plugin_state key = .ok st → st ≠ .Error →
        m.get_plugin_error key = .ok none)
    ∧ (∀ key, (m.initialize_plugin key).res = .ok () →
        ∃ reg, alistLookup (m.initialize_plugin key).mgr.plugins key = some reg
          ∧ reg.error = none)
    ∧ (∀ key, (m.activate_plugin key).res = .ok () →
        Eff.callActivate key ∈ (m.activate_plugin key).effs →
        ∃ reg, alistLookup (m.activate_plugin key).mgr.plugins key = some reg
          ∧ reg.error = none)
    ∧ (∀ key, (m.deactivate_plugin key).res = .ok () →
        Eff.callDeactivate key ∈ (m.deactivate_plugin key).effs →
        ∃ reg, alistLookup (m.deactivate_plugin key).mgr.plugins key = some reg
          ∧ reg.error = none) := by
  refine ⟨?_, ?_, ?_, ?_, ?_⟩
  · intro key reg hlook hst
    exact (reachableM_inv hm _ (alistLookup_mem hlook)).2 hst
  · intro key st hgs hst
    unfold PluginManager.get_plugin_state at hgs
    unfold PluginManager.get_plugin_error
    cases hl : alistLookup m.plugins key with
    | none =>
      rw [hl] at hgs
      exact Except.noConfusion hgs
    | some reg =>
      rw [hl] at hgs
      dsimp only at hgs
      have hstreg : reg.state = st := by
        injection hgs
      have hne : reg.state ≠ PluginState.Error := by
        rw [hstreg]
        exact hst
      have herr : reg.error = none :=
        (reachableM_inv hm _ (alistLookup_mem hl)).2 hne
      dsimp only
      rw [herr]
  · intro key hok
    exact initialize_ok_error_none m key hok
  · intro key hok hcb
    exact activate_ok_error_none m key hok hcb
  · intro key hok hcb
    exact deactivate_ok_error_none m key hok hcb

/-- A plugin whose `initialize` callback fails with the message `boom`. -/
def boomPlugin : Plugin :=
  ⟨"p10", ⟨"p10", "Plugin Ten", "0.1.0", "a test double", "tester"⟩,
    .error "boom", .ok (), .ok ()⟩

/-- A reachable manager holding an `Error` entry with stored message
`boom`: register `boomPlugin`, then initialize it. -/
def cexMgrC10 : PluginManager :=
  ((PluginManager.empty.register_plugin boomPlugin).mgr.initialize_plugin
    "p10").mgr

/-- Counterexample to claim C10 as stated: `deactivate_plugin` on a
reachable `Error` entry succeeds (the non-`Active` no-op path) yet does not
clear the stored error — after the successful call `get_plugin_error`
still returns the stored message, not `None`. -/
theorem manager_error_not_cleared_cex :
    ReachableM cexMgrC10
    ∧ (cexMgrC10.deactivate_plugin "p10").res = .ok ()
    ∧ (cexMgrC10.deactivate_plugin "p10").mgr.get_plugin_error "p10"
        = .ok (some "boom") := by
  exact ⟨ReachableM.initStep _ _ (ReachableM.register _ _ ReachableM.empty),
    rfl, rfl⟩

theorem register_lookup_other (r : PluginRegistry) (p : Plugin) (key : String)
    (hne : key ≠ p.pid) :
    alistLookup (r.register_plugin p).reg.plugins key = alistLookup r.plugins key := by
  unfold PluginRegistry.register_plugin
  split
  · rfl
  · dsimp only
    rw [alistLookup_append]
    have hnone : alistLookup
        [(p.pid, (⟨p, .Registered, none, extract_dependencies p.descriptor⟩
          : RegistryEntry))] key = none := by
      simp [alistLookup, Ne.symm hne]
    rw [hnone]
    cases alistLookup r.plugins key <;> rfl

theorem match_fst_reg (rr : RegResult) (msg : PluginRegistryError → String) (effs : List Eff) :
    (match rr.res with
      | Except.error e => (rr.reg, Except.error (msg e), effs ++ rr.effs)
      | Except.ok _ => (rr.reg, Except.ok (), effs ++ rr.effs) :
        PluginRegistry × Except String Unit × List Eff).1 = rr.reg := by
  cases rr.res <;> rfl

/-- Claim C4 (amended): a plugin gated on a disabled cargo feature is simply
never registered — conditional compilation removes its registration block —
so `register_enabled_plugins` adds no entry with its id and its absence
changes no plugin count; no error is produced for it (the
`PluginRegistryError` taxonomy declares no `FeatureNotEnabled` variant),
and with every flag disabled the call succeeds leaving the registry
untouched. -/
theorem feature_disabled_skips_registration (flags : Features)
    (r : PluginRegistry) (hav : flags.allviewer = false) :
    alistLookup (register_enabled_plugins flags r).1.plugins "allviewer"
        = alistLookup r.plugins "allviewer"
    ∧ (flags.findme = false →
        register_enabled_plugins flags r = (r, .ok (), [])) := by
  obtain ⟨av, fm⟩ := flags
  have hav' : av = false := hav
  subst hav'
  constructor
  · cases fm with
    | false => rfl
    | true =>
      have h1 : (register_enabled_plugins ⟨false, true⟩ r).1
          = (r.register_plugin findme_create_plugin).reg :=
        match_fst_reg (r.register_plugin findme_create_plugin)
          (fun e => "Failed to register FindMe plugin: " ++ e.toMessage) []
      rw [h1]
      exact register_lookup_other r findme_create_plugin "allviewer" (by decide)
  · intro hfm
    have hfm' : fm = false := hfm
    subst hfm'
    rfl

/-- Counterexample to claim C4 as stated: with the `plugin-allviewer`
feature flag absent from the enabled set, registration of the flagged
plugin does not fail at all — in particular not with a `FeatureNotEnabled`
error, which no error variant of the code even provides — it is skipped:
`register_enabled_plugins` returns success and the registry still has no
entry and count zero. -/
theorem feature_disabled_no_error_cex :
    register_enabled_plugins ⟨false, false⟩ PluginRegistry.empty
      = (PluginRegistry.empty, .ok (), [])
    ∧ (register_enabled_plugins ⟨false, false⟩
        PluginRegistry.empty).1.get_plugin_count = .ok 0
    ∧ alistLookup (register_enabled_plugins ⟨false, false⟩
        PluginRegistry.empty).1.plugins "allviewer" = none :=
  ⟨rfl, rfl, rfl⟩

/-- A plugin whose three callbacks all succeed, under id `w1`. -/
def pw1 : Plugin :=
  ⟨"w1", ⟨"w1", "Witness One", "0.1.0", "a test double", "tester"⟩,
    .ok (), .ok (), .ok ()⟩

/-- A manager holding `pw1` freshly registered. -/
def mgrW1 : PluginManager := ⟨[("w1", ⟨pw1, .Registered, none⟩)]⟩

theorem manager_activate_spec_witness :
    (mgrW1.activate_plugin "w1").res = .ok ()
    ∧ eventsOf (mgrW1.activate_plugin "w1").effs
        = [⟨"plugin:initialized", "w1", none, none⟩,
            ⟨"plugin:activated", "w1", none, none⟩] := by
  have h := manager_activate_spec mgrW1 "w1" ⟨pw1, .Registered, none⟩ rfl
  have ha := h.1 rfl rfl rfl
  exact ⟨ha.1, ha.2.2.2⟩

/-- A plugin whose three callbacks all succeed, under id `w2`. -/
def pw2 : Plugin :=
  ⟨"w2", ⟨"w2", "Witness Two", "0.1.0", "a test double", "tester"⟩,
    .ok (), .ok (), .ok ()⟩

/-- A registry holding `pw2` freshly registered (reachable by one
`register_plugin` call). -/
def regW2 : PluginRegistry := (PluginRegistry.empty.register_plugin pw2).reg

theorem registry_initialize_spec_witness :
    alistLookup (regW2.initialize_plugin "w2").reg.plugins "w2"
      = some ⟨pw2, .Initialized, none, []⟩ := by
  have h := registry_initialize_spec regW2 "w2"
    (ReachableR.register _ _ ReachableR.empty) ⟨pw2, .Registered, none, []⟩ rfl
  exact (h.2.2.1 rfl rfl).2

/-- A bus with two global subscribers of `E` (handler 1 failing) and one
component subscriber of `X` for `E` (failing). -/
def busW : EventBus Nat :=
  ⟨[("E", [⟨0, fun _ => .ok ()⟩, ⟨1, fun _ => .error "boom"⟩])],
    [("X", [("E", [⟨2, fun _ => .error "crash"⟩])])]⟩

theorem eventbus_publish_to_spec_witness :
    (busW.publish_to "X" "E" 7).2 = [0, 1, 2]
    ∧ (busW.publish_to "X" "E" 7).1
        = .error
            "Global handler error: boom; Component handler error for X: crash" := by
  have h := eventbus_publish_to_spec busW "X" "E" 7
  refine ⟨?_, rfl⟩
  rw [h.1]
  rfl

theorem feature_disabled_skips_registration_witness :
    alistLookup (register_enabled_plugins ⟨false, true⟩
        PluginRegistry.empty).1.plugins "allviewer" = none
    ∧ register_enabled_plugins ⟨false, false⟩ PluginRegistry.empty
        = (PluginRegistry.empty, .ok (), []) := by
  have h1 := feature_disabled_skips_registration ⟨false, true⟩
    PluginRegistry.empty rfl
  have h2 := feature_disabled_skips_registration ⟨false, false⟩
    PluginRegistry.empty rfl
  exact ⟨by rw [h1.1]; rfl, h2.2 rfl⟩

/-- A tiny universe of runtime type identities for the witness: `nat`
interprets to `Nat` and `str` to `String`. -/
inductive TyTag where
  | nat
  | str
deriving DecidableEq

/-- The interpretation of the witness type identities. -/
def TyTag.interp : TyTag → Type
  | .nat => Nat
  | .str => String

/-- A store holding a `Nat`-typed value at key `k`. -/
def storeW : SharedStore TyTag TyTag.interp :=
  ⟨[("k", ⟨TyTag.nat, (5 : Nat)⟩)]⟩

theorem shared_data_spec_witness :
    storeW.get_shared_data TyTag.nat "k" = .ok (some (5 : Nat))
    ∧ storeW.get_shared_data TyTag.str "k" = .error "Type mismatch for key: k"
    ∧ storeW.get_shared_data TyTag.nat "absent" = .ok none
    ∧ ((SharedStore.empty TyTag TyTag.interp).set_shared_data "k"
        ⟨TyTag.nat, (5 : Nat)⟩).2 = .ok () := by
  have h := shared_data_spec storeW "k" TyTag.nat
  have h2 := shared_data_spec storeW "k" TyTag.str
  have h3 := shared_data_spec storeW "absent" TyTag.nat
  refine ⟨h.2.1 (5 : Nat) rfl, h2.2.2.1 ⟨TyTag.nat, (5 : Nat)⟩ rfl (by decide), h3.1 rfl, ?_⟩
  exact ((shared_data_spec (SharedStore.empty TyTag TyTag.interp)
    "k" TyTag.nat).2.2.2 ⟨TyTag.nat, (5 : Nat)⟩).1

theorem manager_error_state_spec_witness :
    (some "" : Option String) ≠ none
    ∧ alistLookup (cexMgrC6.deactivate_plugin "p6").mgr.plugins "p6"
        = some ⟨emptyMsgPlugin, .Error, some ""⟩ := by
  have h := manager_error_state_spec cexMgrC6
    (ReachableM.initStep _ _ (ReachableM.register _ _ ReachableM.empty))
    "p6" ⟨emptyMsgPlugin, .Error, some ""⟩ rfl rfl
  exact ⟨h.1, h.2.2.2⟩

/-- A plugin whose three callbacks all succeed, under id `w7`. -/
def pw7 : Plugin :=
  ⟨"w7", ⟨"w7", "Witness Seven", "0.1.0", "a test double", "tester"⟩,
    .ok (), .ok (), .ok ()⟩

/-- A registry holding `pw7` registered once. -/
def regW7 : PluginRegistry := (PluginRegistry.empty.register_plugin pw7).reg

theorem register_duplicate_spec_witness :
    (regW7.register_plugin pw7).res = .error (.PluginAlreadyExists "w7")
    ∧ regW7.get_plugin_count = .ok 1
    ∧ (regW7.register_plugin pw7).reg.get_plugin_count = .ok 1 := by
  have h := register_duplicate_spec regW7 pw7 rfl
  refine ⟨by rw [h.1]; rfl, rfl, by rw [h.2]; rfl⟩

/-- A plugin whose three callbacks all succeed, under id `w8`. -/
def pw8 : Plugin :=
  ⟨"w8", ⟨"w8", "Witness Eight", "0.1.0", "a test double", "tester"⟩,
    .ok (), .ok (), .ok ()⟩

/-- A reachable manager holding `pw8` in `Active` state: register, then
activate. -/
def mgrW8 : PluginManager :=
  ((PluginManager.empty.register_plugin pw8).mgr.activate_plugin "w8").mgr

theorem manager_unregister_spec_witness :
    (mgrW8.unregister_plugin "w8").res = .ok ()
    ∧ (mgrW8.unregister_plugin "w8").mgr.get_plugin_state "w8"
        = .error "Plugin with ID 'w8' not found"
    ∧ eventsOf (mgrW8.unregister_plugin "w8").effs
        = [⟨"plugin:deactivated", "w8", none, none⟩,
            ⟨"plugin:unregistered", "w8", none, none⟩] := by
  have h := manager_unregister_spec mgrW8 "w8"
    (ReachableM.activate _ _ (ReachableM.register _ _ ReachableM.empty))
  have h2 := h.2.1 ⟨pw8, .Active, none⟩ rfl rfl rfl
  exact ⟨h2.1, h2.2.2.1, h2.2.2.2⟩

/-- A plugin whose three callbacks all succeed, under id `w9`. -/
def pw9 : Plugin :=
  ⟨"w9", ⟨"w9", "Witness Nine", "0.1.0", "a test double", "tester"⟩,
    .ok (), .ok (), .ok ()⟩

/-- A manager holding `pw9` in `Registered` (hence non-`Active`) state. -/
def mgrW9 : PluginManager := ⟨[("w9", ⟨pw9, .Registered, none⟩)]⟩

theorem manager_deactivate_spec_witness :
    mgrW9.deactivate_plugin "w9" = ⟨mgrW9, .ok (), []⟩ := by
  have h := manager_deactivate_spec mgrW9 "w9" ⟨pw9, .Registered, none⟩ rfl
  exact h.1 (by decide)

theorem manager_error_cleared_spec_witness :
    mgrW8.get_plugin_error "w8" = .ok none := by
  have h := manager_error_cleared_spec mgrW8
    (ReachableM.activate _ _ (ReachableM.register _ _ ReachableM.empty))
  exact h.2.1 "w8" PluginState.Active rfl (by decide)

end ImageViewer
